import Mathlib

/-!
Verification development for the Redis-backed work-queue coordinator of
this repository (`app/db/item_list_store.py`, class `ItemListStore`) and
the retry routing of its webhook worker (`app/workers/webhook_transfer.py`).

The embedding models the Redis state that one `list_type` of the store
touches (all backend keys are namespaced per `list_type` by the
`set_key_template` / `circle_key_template` / `channel_name_template`
helpers, so distinct item types never share state):

  * the sorted set `"{list_type} Store"` (the Ready-Time Index) as an
    association list from member keys to integer scores, with at most one
    entry per member (maintained by `zadd`);
  * the circular list `"{list_type} Deferrals"` (the Deferred Ring) as a
    plain list, head = left end (so `lpush` conses);
  * the payload lists as the set of keys whose backing storage exists;
  * the pub/sub channel `"{list_type} Ready"` as the list of published
    messages;
  * a `version` counter for the sorted-set key, modelling Redis
    `WATCH`/`MULTI`/`EXEC` dirtiness: every write command that actually
    changes the sorted set bumps it, and a transaction whose watched
    version no longer matches aborts.

Timestamps and scores are integers (the Python code uses float UNIX
seconds; every constant and every scenario in play is integral).
-/

namespace ItemListStore

/-- Class-level timing constants of `ItemListStore`
(`IN_PROCESS`, `TIMEOUT`, `RETRY_DELAY`, `CLOCK_DRIFT`), with the
source's default values (a week, six hours, thirty minutes, fifteen
seconds).  Kept as a structure so that scenarios that stipulate other
values can instantiate them. -/
structure StoreConfig where
  IN_PROCESS : Int := 1 * 60 * 60 * 24 * 7
  TIMEOUT : Int := 1 * 60 * 60 * 6
  RETRY_DELAY : Int := 1 * 60 * 30
  CLOCK_DRIFT : Int := 1 * 15
deriving Repr, DecidableEq

/-- The source's own constant values. -/
def defaultConfig : StoreConfig := {}

/-- The Redis state owned by one `list_type` of the store. -/
structure RedisState where
  /-- The sorted set `"{list_type} Store"`: member key ↦ score. -/
  zset : List (String × Int) := []
  /-- The circular list `"{list_type} Deferrals"`; head is the left end. -/
  ring : List String := []
  /-- Which payload lists currently have backing storage. -/
  storage : List String := []
  /-- Messages published on the `"{list_type} Ready"` channel. -/
  pubs : List String := []
  /-- WATCH fence for the sorted-set key: bumped by every write that
  actually modifies the sorted set. -/
  version : Nat := 0
deriving Repr, DecidableEq

/-- Redis `ZSCORE`: the score of a member, if present. -/
def zscore (z : List (String × Int)) (k : String) : Option Int :=
  (z.find? (fun p => p.1 == k)).map (fun p => p.2)

/-- Redis `ZADD` with a single member: returns the number of newly added
members (0 when the member existed and only its score was rewritten) and
the resulting sorted set. -/
def zadd (z : List (String × Int)) (k : String) (s : Int) :
    Nat × List (String × Int) :=
  match zscore z k with
  | some _ => (0, z.map (fun p => if p.1 == k then (k, s) else p))
  | none => (1, z ++ [(k, s)])

/-- Redis `ZREM` with a single member: returns the number of removed
members and the resulting sorted set. -/
def zrem (z : List (String × Int)) (k : String) :
    Nat × List (String × Int) :=
  ((if (zscore z k).isSome then 1 else 0), z.filter (fun p => p.1 != k))

/-- Install a new sorted-set value in the state, bumping the WATCH
version exactly when the write actually changed the set (Redis only
invalidates a `WATCH` when the key is modified). -/
def touchSet (st : RedisState) (z : List (String × Int)) : RedisState :=
  if z == st.zset then { st with zset := z }
  else { st with zset := z, version := st.version + 1 }

/-- Score filter of `ZRANGEBYSCORE min max`: both bounds are inclusive
(Redis default; the code passes plain `min=`/`max=` values with no `(`
exclusive prefix), and `min = none` encodes the absent/−inf bound. -/
def inWindow (lo : Option Int) (hi : Int) (s : Int) : Bool :=
  (match lo with
   | none => true
   | some v => decide (v ≤ s)) && decide (s ≤ hi)

/-- Sorted-set ordering: by score, ties broken by member string
(lexicographically), as Redis orders a sorted set. -/
def zbetter (p q : String × Int) : Bool :=
  decide (p.2 < q.2) || (decide (p.2 = q.2) && decide (p.1 < q.1))

/-- Fold selecting the least entry in sorted-set order. -/
def zminFold (acc : Option (String × Int)) :
    List (String × Int) → Option (String × Int)
  | [] => acc
  | p :: l =>
    match acc with
    | none => zminFold (some p) l
    | some q => zminFold (some (if zbetter p q then p else q)) l

/-- Redis `ZRANGEBYSCORE key min max offset=0 count=1`: the first (least
in sorted-set order) member whose score lies in the inclusive window, if
any. -/
def zrangebyscoreFirst (z : List (String × Int)) (lo : Option Int)
    (hi : Int) : Option String :=
  (zminFold none (z.filter (fun p => inWindow lo hi p.2))).map (fun p => p.1)

/-- Member keys of a sorted set. -/
def members (z : List (String × Int)) : List String := z.map (fun p => p.1)

/-- Erase the first occurrence of `k` (Redis `LREM key 1 k`, which scans
from the head). -/
def lremFirst (l : List String) (k : String) : List String := l.erase k

/-- `add_new_list`: register `key` ready now (`zadd` with score `now`)
and publish `key` on the readiness channel. -/
def add_new_list (st : RedisState) (nowT : Int) (key : String) :
    RedisState :=
  let st' := touchSet st (zadd st.zset key nowT).2
  { st' with pubs := st'.pubs ++ [key] }

/-- `add_retry_list`: register `key` with score `now + RETRY_DELAY`.
(The deferred channel notification is scheduled as a separate task that
fires only after `RETRY_DELAY` has elapsed, so at return time nothing
has been published.) -/
def add_retry_list (cfg : StoreConfig) (st : RedisState) (nowT : Int)
    (key : String) : RedisState :=
  touchSet st (zadd st.zset key (nowT + cfg.RETRY_DELAY)).2

/-- `remove_processed_list`: `zrem` the key from the Ready-Time Index,
then delete its backing storage (fix #47). -/
def remove_processed_list (st : RedisState) (key : String) : RedisState :=
  let st' := touchSet st (zrem st.zset key).2
  { st' with storage := st'.storage.filter (fun x => x != key) }

/-- `add_deferred_list`: `LPUSH` the key onto the Deferred Ring (adds on
the left). -/
def add_deferred_list (st : RedisState) (key : String) : RedisState :=
  { st with ring := key :: st.ring }

/-- `remove_deferred_list`: `LREM circle_key 1 key` — remove one
occurrence of the key, scanning from the head. -/
def remove_deferred_list (st : RedisState) (key : String) : RedisState :=
  { st with ring := lremFirst st.ring key }

/-- `get_deferred_count`: `LLEN` of the Deferred Ring. -/
def get_deferred_count (st : RedisState) : Nat := st.ring.length

/-- `select_for_undeferral`: `RPOPLPUSH circle_key circle_key` — rotate
the ring, returning the element moved from the tail to the head; `none`
on an empty ring. -/
def select_for_undeferral (st : RedisState) : Option String × RedisState :=
  match st.ring.getLast? with
  | none => (none, st)
  | some k => (some k, { st with ring := k :: st.ring.dropLast })

/-- Backend error raised by the Redis client (aioredis `RedisError`),
e.g. when the connection pool is being closed during shutdown. -/
inductive RedisError where
  | connectionClosed
  | other (msg : String)
deriving Repr, DecidableEq

/-- `select_from_channel`: subscribe to the readiness channel, block for
one message, unsubscribe, and return the message; any `RedisError`
raised along the way (typically the process shutting down and closing
connections) is caught and turned into `none` instead of propagating.
The blocking wait itself is represented by its outcome: `sub`, `get` and
`unsub` are the results of the three awaited backend calls. -/
def select_from_channel (sub : Except RedisError Unit)
    (get : Except RedisError String) (unsub : Except RedisError Unit) :
    Option String :=
  let body : Except RedisError String := do
    let _ ← sub
    let key ← get
    let _ ← unsub
    pure key
  match body with
  | Except.ok key => some key
  | Except.error _ => none

/-- `mark_for_processing` (inner function of `select_for_processing`):
a `MULTI`/`EXEC` transaction, under a `WATCH` taken at version
`watched`, that rewrites the candidate's score to `now() + IN_PROCESS`.
If the watched set changed, `EXEC` aborts and the state is untouched
(the pipeline reports an exception, which is `≠ 0`).  Otherwise the
`zadd` runs and the mark is reported successful exactly when `zadd`
added 0 new members, i.e. the member already existed. -/
def mark_for_processing (cfg : StoreConfig) (st : RedisState)
    (watched : Nat) (nowT : Int) (key : String) : Bool × RedisState :=
  if st.version == watched then
    let r := zadd st.zset key (nowT + cfg.IN_PROCESS)
    (r.1 == 0, touchSet st r.2)
  else
    (false, st)

/-- The candidate scan of one `select_for_processing` attempt with clock
snapshot `start`: first `ZRANGEBYSCORE` over the abandoned window
`[start + RETRY_DELAY + CLOCK_DRIFT, start + IN_PROCESS − (TIMEOUT + CLOCK_DRIFT)]`
(bounds inclusive), and only if that is empty, `ZRANGEBYSCORE` over the
ready window `(−inf, start + CLOCK_DRIFT]`; each scan takes the first
entry in sorted-set order. -/
def scanCandidate (cfg : StoreConfig) (st : RedisState) (start : Int) :
    Option String :=
  match zrangebyscoreFirst st.zset
      (some (start + (cfg.RETRY_DELAY + cfg.CLOCK_DRIFT)))
      (start + cfg.IN_PROCESS - (cfg.TIMEOUT + cfg.CLOCK_DRIFT)) with
  | some k => some k
  | none =>
    zrangebyscoreFirst st.zset none (start + cfg.CLOCK_DRIFT)

/-- Outcome of one iteration of the `while True` claim loop of
`select_for_processing`. -/
inductive AttemptOutcome where
  /-- Neither scan found a candidate: the loop returns `None` at once. -/
  | noneReady
  /-- The conditional mark succeeded: the loop returns this key. -/
  | claimed (key : String)
  /-- The mark failed (conflict): the loop sleeps a random
  0.1–0.8 s and restarts the whole claim sequence. -/
  | retry
deriving Repr, DecidableEq

/-- One iteration of the claim loop.  `scanSt` is the state seen by the
`WATCH` and the two scans; `execSt` is the state current when the
`MULTI`/`EXEC` of `mark_for_processing` runs (interference by other
workers between scan and exec shows up as `execSt ≠ scanSt`); `nowT` is
the clock read inside `mark_for_processing`. -/
def selectAttempt (cfg : StoreConfig) (scanSt execSt : RedisState)
    (start nowT : Int) : AttemptOutcome × RedisState :=
  match scanCandidate cfg scanSt start with
  | none => (AttemptOutcome.noneReady, execSt)
  | some k =>
    let r := mark_for_processing cfg execSt scanSt.version nowT k
    (if r.1 then AttemptOutcome.claimed k else AttemptOutcome.retry, r.2)

/-- `select_for_processing` as observed by a single uninterfered caller:
the scan and the conditional mark both run against the same state (and,
with no interference, the first loop iteration always decides — see
`selectAttempt_no_interference_ne_retry`).  Returns the claimed key, or
`none` when nothing is ready. -/
def select_for_processing (cfg : StoreConfig) (st : RedisState)
    (start : Int) : Option String × RedisState :=
  match selectAttempt cfg st st start start with
  | (AttemptOutcome.claimed k, st') => (some k, st')
  | (_, st') => (none, st')

end ItemListStore

namespace WebhookTransfer

open ItemListStore

/-- The composite queue key of a webhook unit of work: the code stores
it as the string `environ + ":" + ident + ":" + rc` and recovers the
three fields with `key.split(":")`, parsing the retry-generation counter
`rc` with `int(...)`. -/
structure WKey where
  environ : String
  ident : String
  rc : Nat
deriving Repr, DecidableEq

/-- Render a `WKey` to its string form `environ:ident:rc`. -/
def WKey.render (k : WKey) : String :=
  k.environ ++ ":" ++ k.ident ++ ":" ++ Nat.repr k.rc

/-- The retry-key computation at the top of `process_item_list`
(webhook_transfer.py lines 48–54): if the incoming key's generation
counter is `< 5`, the next-generation key increments it by one and a
retry is allowed; otherwise the counter is reset to 0 in the new key and
no retry is allowed. -/
def retryKeyOf (k : WKey) : WKey × Bool :=
  if k.rc < 5 then ({ k with rc := k.rc + 1 }, true)
  else ({ k with rc := 0 }, false)

/-- What `process_item_list` decides after fully draining a unit
(lines 94–102): with failed items and retries allowed it returns the
next-generation key (which the caller registers via `add_retry_list`);
with failed items and retries exhausted it pushes the new key onto the
Deferred Ring and returns `None`; with no failed items it returns
`None`. -/
inductive Disposition where
  | retried (next : WKey)
  | deferred (next : WKey)
  | done
deriving Repr, DecidableEq

/-- Routing decision of `process_item_list` for a drained unit with
`bad_count` transiently failed items. -/
def routeAfterDrain (k : WKey) (badCount : Nat) : Disposition :=
  let r := retryKeyOf k
  if badCount > 0 then
    if r.2 then Disposition.retried r.1 else Disposition.deferred r.1
  else
    Disposition.done

/-- One iteration of `process_all_item_lists` after `process_item_list`
of `k` drained the unit with `badCount` transient failures, acting at
time `nowT`: a returned retry key is registered via `add_retry_list`;
a deferral was already pushed by `process_item_list` via
`add_deferred_list`; in every case the drained unit is then removed via
`remove_processed_list`. -/
def processStep (cfg : StoreConfig) (st : RedisState) (k : WKey)
    (badCount : Nat) (nowT : Int) : RedisState :=
  match routeAfterDrain k badCount with
  | Disposition.retried next =>
    remove_processed_list (add_retry_list cfg st nowT next.render) k.render
  | Disposition.deferred next =>
    remove_processed_list (add_deferred_list st next.render) k.render
  | Disposition.done =>
    remove_processed_list st k.render

end WebhookTransfer

namespace SpecModel

open ItemListStore

/-- The candidate scan exactly as the spec's words describe it, for
comparison with the code's `scanCandidate`: a half-open abandoned window
`[start + RETRY_DELAY + CLOCK_DRIFT, start + IN_PROCESS − TIMEOUT − CLOCK_DRIFT)`
(right endpoint excluded), then a ready scan with score
`≤ start + CLOCK_DRIFT`. -/
def scanCandidateHalfOpen (cfg : StoreConfig) (st : RedisState)
    (start : Int) : Option String :=
  let lo := start + cfg.RETRY_DELAY + cfg.CLOCK_DRIFT
  let hi := start + cfg.IN_PROCESS - cfg.TIMEOUT - cfg.CLOCK_DRIFT
  match (zminFold none (st.zset.filter
      (fun p => decide (lo ≤ p.2) && decide (p.2 < hi)))).map
      (fun p => p.1) with
  | some k => some k
  | none => zrangebyscoreFirst st.zset none (start + cfg.CLOCK_DRIFT)

end SpecModel

namespace ItemListStore

/-! Supporting lemmas about the embedded Redis primitives. -/

theorem inWindow_some_iff {v hi s : Int} :
    inWindow (some v) hi s = true ↔ v ≤ s ∧ s ≤ hi := by
  simp [inWindow]

theorem inWindow_none_iff {hi s : Int} :
    inWindow none hi s = true ↔ s ≤ hi := by
  simp [inWindow]

theorem inWindow_some_false {v hi s : Int}
    (h : inWindow (some v) hi s = false) : ¬(v ≤ s ∧ s ≤ hi) := by
  intro hc
  rw [inWindow_some_iff.mpr hc] at h
  cases h

theorem inWindow_none_false {hi s : Int}
    (h : inWindow none hi s = false) : ¬(s ≤ hi) := by
  intro hc
  rw [inWindow_none_iff.mpr hc] at h
  cases h

theorem zbetter_true_le {p q : String × Int} (h : zbetter p q = true) :
    p.2 ≤ q.2 := by
  simp only [zbetter, Bool.or_eq_true, Bool.and_eq_true, decide_eq_true_eq] at h
  rcases h with h | ⟨h, _⟩
  · exact le_of_lt h
  · exact le_of_eq h

theorem zbetter_false_le {p q : String × Int} (h : zbetter p q = false) :
    q.2 ≤ p.2 := by
  simp only [zbetter, Bool.or_eq_false_iff, Bool.and_eq_false_iff,
    decide_eq_false_iff_not] at h
  exact le_of_not_lt h.1

theorem zminFold_some_spec :
    ∀ (l : List (String × Int)) (acc : Option (String × Int))
      (p : String × Int), zminFold acc l = some p →
      (p ∈ l ∨ acc = some p) ∧ (∀ q ∈ l, p.2 ≤ q.2) ∧
        (∀ q, acc = some q → p.2 ≤ q.2) := by
  intro l
  induction l with
  | nil =>
    intro acc p h
    simp only [zminFold] at h
    refine ⟨Or.inr h, by simp, fun q hq => ?_⟩
    rw [h] at hq
    injection hq with h2
    rw [h2]
  | cons hd tl ih =>
    intro acc p h
    cases acc with
    | none =>
      simp only [zminFold] at h
      obtain ⟨hmem, hmin, hacc⟩ := ih (some hd) p h
      refine ⟨?_, ?_, ?_⟩
      · rcases hmem with hm | hm
        · exact Or.inl (List.mem_cons_of_mem _ hm)
        · exact Or.inl (by simp at hm; rw [hm]; exact List.mem_cons_self _ _)
      · intro q hq
        rcases List.mem_cons.mp hq with rfl | hq
        · exact hacc q rfl
        · exact hmin q hq
      · intro q hq; cases hq
    | some a =>
      simp only [zminFold] at h
      obtain ⟨hmem, hmin, hacc⟩ := ih _ p h
      have hm2 : p.2 ≤ (if zbetter hd a then hd else a).2 := hacc _ rfl
      have hhd : (if zbetter hd a then hd else a).2 ≤ hd.2 := by
        by_cases hb : zbetter hd a = true
        · simp [hb]
        · simp only [Bool.not_eq_true] at hb
          simp [hb]
          exact zbetter_false_le hb
      have ha : (if zbetter hd a then hd else a).2 ≤ a.2 := by
        by_cases hb : zbetter hd a = true
        · simp [hb]; exact zbetter_true_le hb
        · simp only [Bool.not_eq_true] at hb
          simp [hb]
      refine ⟨?_, ?_, ?_⟩
      · rcases hmem with hm | hm
        · exact Or.inl (List.mem_cons_of_mem _ hm)
        · by_cases hb : zbetter hd a = true
          · simp [hb] at hm
            exact Or.inl (by rw [hm]; exact List.mem_cons_self _ _)
          · simp only [Bool.not_eq_true] at hb
            simp [hb] at hm
            exact Or.inr (by rw [hm])
      · intro q hq
        rcases List.mem_cons.mp hq with rfl | hq
        · exact le_trans hm2 hhd
        · exact hmin q hq
      · intro q hq
        cases hq
        exact le_trans hm2 ha

theorem zminFold_eq_none :
    ∀ (l : List (String × Int)) (acc : Option (String × Int)),
      zminFold acc l = none → acc = none ∧ l = [] := by
  intro l
  induction l with
  | nil => intro acc h; exact ⟨h, rfl⟩
  | cons hd tl ih =>
    intro acc h
    cases acc with
    | none =>
      simp only [zminFold] at h
      exact absurd (ih (some hd) h).1 (by simp)
    | some a =>
      simp only [zminFold] at h
      exact absurd (ih _ h).1 (by simp)

theorem zrangebyscoreFirst_some {z : List (String × Int)} {lo : Option Int}
    {hi : Int} {k : String} (h : zrangebyscoreFirst z lo hi = some k) :
    ∃ s, (k, s) ∈ z ∧ inWindow lo hi s = true ∧
      ∀ q ∈ z, inWindow lo hi q.2 = true → s ≤ q.2 := by
  rw [zrangebyscoreFirst, Option.map_eq_some'] at h
  obtain ⟨p, hp, hk⟩ := h
  obtain ⟨hmem, hmin, -⟩ := zminFold_some_spec _ none p hp
  rcases hmem with hmem | hacc
  · have hz := List.mem_filter.mp hmem
    refine ⟨p.2, ?_, hz.2, ?_⟩
    · rw [← hk]; exact hz.1
    · intro q hq hw
      exact hmin q (List.mem_filter.mpr ⟨hq, hw⟩)
  · cases hacc

theorem zrangebyscoreFirst_none {z : List (String × Int)} {lo : Option Int}
    {hi : Int} (h : zrangebyscoreFirst z lo hi = none) :
    ∀ q ∈ z, inWindow lo hi q.2 = false := by
  rw [zrangebyscoreFirst, Option.map_eq_none'] at h
  have hnil := (zminFold_eq_none _ none h).2
  intro q hq
  by_contra hw
  simp only [Bool.not_eq_false] at hw
  have : q ∈ z.filter (fun p => inWindow lo hi p.2) :=
    List.mem_filter.mpr ⟨hq, hw⟩
  rw [hnil] at this
  cases this

theorem zscore_cons_eq {hd : String × Int} {tl : List (String × Int)}
    {k : String} (h : (hd.1 == k) = true) :
    zscore (hd :: tl) k = some hd.2 := by
  simp [zscore, List.find?, h]

theorem zscore_cons_ne {hd : String × Int} {tl : List (String × Int)}
    {k : String} (h : (hd.1 == k) = false) :
    zscore (hd :: tl) k = zscore tl k := by
  simp [zscore, List.find?, h]

theorem zscore_isSome_of_mem {z : List (String × Int)} {k : String}
    {s : Int} (h : (k, s) ∈ z) : (zscore z k).isSome = true := by
  have hf : (z.find? (fun p => p.1 == k)).isSome = true :=
    List.find?_isSome.mpr ⟨(k, s), h, by simp⟩
  obtain ⟨p, hp⟩ := Option.isSome_iff_exists.mp hf
  simp [zscore, hp]

theorem zscore_update (z : List (String × Int)) (k : String) (s : Int) :
    zscore (z.map (fun p => if p.1 == k then (k, s) else p)) k =
      (zscore z k).map (fun _ => s) := by
  induction z with
  | nil => rfl
  | cons hd tl ih =>
    by_cases hp : (hd.1 == k) = true
    · simp only [List.map_cons, if_pos hp]
      rw [zscore_cons_eq (by simp), zscore_cons_eq hp]
      rfl
    · have hb : (hd.1 == k) = false := by
        simpa using hp
      simp only [List.map_cons, if_neg hp]
      rw [zscore_cons_ne hb, zscore_cons_ne hb]
      exact ih

theorem zscore_append_single (z : List (String × Int)) (k : String)
    (s : Int) (h : zscore z k = none) :
    zscore (z ++ [(k, s)]) k = some s := by
  induction z with
  | nil =>
    rw [List.nil_append, zscore_cons_eq (by simp)]
  | cons hd tl ih =>
    by_cases hp : (hd.1 == k) = true
    · rw [zscore_cons_eq hp] at h; cases h
    · have hb : (hd.1 == k) = false := by
        simpa using hp
      rw [zscore_cons_ne hb] at h
      rw [List.cons_append, zscore_cons_ne hb]
      exact ih h

theorem zscore_zadd_self (z : List (String × Int)) (k : String) (s : Int) :
    zscore (zadd z k s).2 k = some s := by
  unfold zadd
  cases hz : zscore z k with
  | none => exact zscore_append_single z k s hz
  | some v => rw [zscore_update, hz]; rfl

theorem zadd_fst_eq_zero (z : List (String × Int)) (k : String) (s : Int) :
    (zadd z k s).1 = 0 ↔ (zscore z k).isSome = true := by
  unfold zadd
  cases hz : zscore z k <;> simp

theorem zadd_length_of_absent {z : List (String × Int)} {k : String}
    (s : Int) (h : zscore z k = none) :
    (zadd z k s).2.length = z.length + 1 := by
  unfold zadd
  rw [h]
  simp

theorem zadd_length_of_present {z : List (String × Int)} {k : String}
    {v : Int} (s : Int) (h : zscore z k = some v) :
    (zadd z k s).2.length = z.length := by
  unfold zadd
  rw [h]
  simp

theorem touchSet_zset (st : RedisState) (z : List (String × Int)) :
    (touchSet st z).zset = z := by
  unfold touchSet
  split <;> rfl

theorem touchSet_ring (st : RedisState) (z : List (String × Int)) :
    (touchSet st z).ring = st.ring := by
  unfold touchSet
  split <;> rfl

theorem touchSet_storage (st : RedisState) (z : List (String × Int)) :
    (touchSet st z).storage = st.storage := by
  unfold touchSet
  split <;> rfl

theorem touchSet_pubs (st : RedisState) (z : List (String × Int)) :
    (touchSet st z).pubs = st.pubs := by
  unfold touchSet
  split <;> rfl

theorem touchSet_version_of_ne {st : RedisState}
    {z : List (String × Int)} (h : z ≠ st.zset) :
    (touchSet st z).version = st.version + 1 := by
  unfold touchSet
  rw [if_neg (by simpa using h)]

theorem scanCandidate_isSome_zscore {cfg : StoreConfig} {st : RedisState}
    {start : Int} {k : String} (h : scanCandidate cfg st start = some k) :
    (zscore st.zset k).isSome = true := by
  unfold scanCandidate at h
  cases h1 : zrangebyscoreFirst st.zset
      (some (start + (cfg.RETRY_DELAY + cfg.CLOCK_DRIFT)))
      (start + cfg.IN_PROCESS - (cfg.TIMEOUT + cfg.CLOCK_DRIFT)) with
  | none =>
    rw [h1] at h
    obtain ⟨s, hmem, -, -⟩ := zrangebyscoreFirst_some h
    exact zscore_isSome_of_mem hmem
  | some k1 =>
    rw [h1] at h
    injection h with h2
    rw [← h2]
    obtain ⟨s, hmem, -, -⟩ := zrangebyscoreFirst_some h1
    exact zscore_isSome_of_mem hmem

theorem selectAttempt_no_interference_ne_retry (cfg : StoreConfig)
    (st : RedisState) (start nowT : Int) :
    (selectAttempt cfg st st start nowT).1 ≠ AttemptOutcome.retry := by
  unfold selectAttempt
  cases hc : scanCandidate cfg st start with
  | none => simp
  | some k =>
    have hs := scanCandidate_isSome_zscore hc
    unfold mark_for_processing
    have h0 : (zadd st.zset k (nowT + cfg.IN_PROCESS)).1 = 0 :=
      (zadd_fst_eq_zero _ _ _).mpr hs
    simp [h0]

theorem zrangebyscoreFirst_singleton (k : String) (s : Int)
    (lo : Option Int) (hi : Int) :
    zrangebyscoreFirst [(k, s)] lo hi =
      if inWindow lo hi s then some k else none := by
  by_cases h : inWindow lo hi s = true
  · simp [zrangebyscoreFirst, List.filter, h, zminFold]
  · have hb : inWindow lo hi s = false := by
      simpa using h
    simp [zrangebyscoreFirst, List.filter, hb, zminFold]

theorem filter_self_idem {α : Type} (p : α → Bool) (l : List α) :
    (l.filter p).filter p = l.filter p := by
  induction l with
  | nil => rfl
  | cons hd tl ih =>
    by_cases h : p hd = true
    · simp [List.filter_cons, h, ih]
    · have hb : p hd = false := by
        simpa using h
      simp [List.filter_cons, hb, ih]

theorem filter_ne_of_zscore_none {z : List (String × Int)} {k : String}
    (h : zscore z k = none) : z.filter (fun p => p.1 != k) = z := by
  induction z with
  | nil => rfl
  | cons hd tl ih =>
    by_cases hp : (hd.1 == k) = true
    · rw [zscore_cons_eq hp] at h; cases h
    · have hb : (hd.1 == k) = false := by
        simpa using hp
      rw [zscore_cons_ne hb] at h
      have ht : (hd.1 != k) = true := by
        simp [bne, hb]
      rw [List.filter_cons_of_pos (p := fun q : String × Int => q.1 != k) ht,
        ih h]

theorem zscore_filter_ne (z : List (String × Int)) (k : String) :
    zscore (z.filter (fun p => p.1 != k)) k = none := by
  unfold zscore
  rw [Option.map_eq_none', List.find?_eq_none]
  intro p hp
  have := (List.mem_filter.mp hp).2
  simpa using this

end ItemListStore


namespace Claims

open ItemListStore WebhookTransfer

/-- Claim C1 (corrected), counterexample to the claim as stated.  With
`TIMEOUT = 1200` and `IN_PROCESS = 604800` (the other constants at their
source values, `RETRY_DELAY = 1800`, `CLOCK_DRIFT = 15`), a unit claimed
at `T = 0` carries score `604800`.  The claim says it becomes
reclaimable exactly once `now ≥ 603600` and never earlier; in fact a
`select_for_processing` call at `now = 603600` (and `603599`) returns
`none`, while a call at `now = 2000` — far earlier — already reclaims
the key. -/
theorem C1_counterexample :
    (select_for_processing { TIMEOUT := 1200 }
        { zset := [("K", 604800)] } 603600).1 = none ∧
    (select_for_processing { TIMEOUT := 1200 }
        { zset := [("K", 604800)] } 603599).1 = none ∧
    (select_for_processing { TIMEOUT := 1200 }
        { zset := [("K", 604800)] } 2000).1 = some "K" ∧
    (2000 : Int) < 603600 := by
  refine ⟨?_, ?_, ?_, ?_⟩ <;> decide

/-- Claim C1 (amended): a key whose score was rewritten to the claim
marker `T + IN_PROCESS` is found by the abandoned scan of
`select_for_processing` made at time `now` exactly when
`T + TIMEOUT + CLOCK_DRIFT ≤ now ≤ T + IN_PROCESS − RETRY_DELAY − CLOCK_DRIFT`
(not when `now ≥ T + (IN_PROCESS − TIMEOUT)`).  In particular, with
`TIMEOUT = 1200` and `IN_PROCESS = 604800` a unit claimed at `t = 0` is
reclaimable from `now = 1215` (not `1214`) through `now = 602985` (not
`602986`). -/
theorem C1_reclaim_window :
    (∀ (cfg : StoreConfig) (K : String) (T nowt : Int),
      zrangebyscoreFirst [(K, T + cfg.IN_PROCESS)]
          (some (nowt + (cfg.RETRY_DELAY + cfg.CLOCK_DRIFT)))
          (nowt + cfg.IN_PROCESS - (cfg.TIMEOUT + cfg.CLOCK_DRIFT)) = some K
        ↔ (T + cfg.TIMEOUT + cfg.CLOCK_DRIFT ≤ nowt ∧
           nowt ≤ T + cfg.IN_PROCESS - cfg.RETRY_DELAY - cfg.CLOCK_DRIFT)) ∧
    (select_for_processing { TIMEOUT := 1200 }
        { zset := [("K", 604800)] } 1215).1 = some "K" ∧
    (select_for_processing { TIMEOUT := 1200 }
        { zset := [("K", 604800)] } 1214).1 = none ∧
    (select_for_processing { TIMEOUT := 1200 }
        { zset := [("K", 604800)] } 602985).1 = some "K" ∧
    (select_for_processing { TIMEOUT := 1200 }
        { zset := [("K", 604800)] } 602986).1 = none := by
  refine ⟨?_, by decide, by decide, by decide, by decide⟩
  intro cfg K T nowt
  rw [zrangebyscoreFirst_singleton]
  by_cases h : inWindow (some (nowt + (cfg.RETRY_DELAY + cfg.CLOCK_DRIFT)))
      (nowt + cfg.IN_PROCESS - (cfg.TIMEOUT + cfg.CLOCK_DRIFT))
      (T + cfg.IN_PROCESS) = true
  · rw [if_pos h]
    rw [inWindow_some_iff] at h
    exact ⟨fun _ => by omega, fun _ => rfl⟩
  · have hb : inWindow (some (nowt + (cfg.RETRY_DELAY + cfg.CLOCK_DRIFT)))
        (nowt + cfg.IN_PROCESS - (cfg.TIMEOUT + cfg.CLOCK_DRIFT))
        (T + cfg.IN_PROCESS) = false := by
      simpa using h
    rw [hb]
    simp only [Bool.false_eq_true, if_false]
    rw [inWindow_some_iff] at h
    constructor
    · intro hx
      cases hx
    · intro hx
      exact absurd (by omega : nowt + (cfg.RETRY_DELAY + cfg.CLOCK_DRIFT) ≤
        T + cfg.IN_PROCESS ∧ T + cfg.IN_PROCESS ≤
        nowt + cfg.IN_PROCESS - (cfg.TIMEOUT + cfg.CLOCK_DRIFT)) h

/-- Claim C3 (corrected), counterexample to the claim as stated.  The
abandoned window of the code is closed on the right, not half-open: with
the source constants and snapshot `start = 0` the window's right
endpoint is `0 + 604800 − (21600 + 15) = 583185`, and a single entry
sitting exactly on it is selected by `select_for_processing`, while the
spec's half-open window (`SpecModel.scanCandidateHalfOpen`) would find
no candidate at all there. -/
theorem C3_counterexample :
    scanCandidate defaultConfig { zset := [("k", 583185)] } 0 = some "k" ∧
    (select_for_processing defaultConfig
        { zset := [("k", 583185)] } 0).1 = some "k" ∧
    SpecModel.scanCandidateHalfOpen defaultConfig
        { zset := [("k", 583185)] } 0 = none := by
  refine ⟨?_, ?_, ?_⟩ <;> decide

/-- Claim C3 (amended): in every single claim attempt with snapshot
`start`, candidates are chosen in two priority tiers — first any entry
with score in the closed abandoned window
`[start + RETRY_DELAY + CLOCK_DRIFT, start + IN_PROCESS − TIMEOUT − CLOCK_DRIFT]`
(both endpoints included), and only if that tier is empty an entry with
score `≤ start + CLOCK_DRIFT`; within each tier an entry with the
earliest score is taken, so an abandoned entry always outranks every
fresh ready entry. -/
theorem C3_two_tier_selection (cfg : StoreConfig) (st : RedisState)
    (start : Int) :
    (∀ k, scanCandidate cfg st start = some k →
      (∃ s, (k, s) ∈ st.zset ∧
        (start + (cfg.RETRY_DELAY + cfg.CLOCK_DRIFT) ≤ s ∧
          s ≤ start + cfg.IN_PROCESS - (cfg.TIMEOUT + cfg.CLOCK_DRIFT)) ∧
        ∀ q ∈ st.zset,
          start + (cfg.RETRY_DELAY + cfg.CLOCK_DRIFT) ≤ q.2 ∧
            q.2 ≤ start + cfg.IN_PROCESS - (cfg.TIMEOUT + cfg.CLOCK_DRIFT) →
          s ≤ q.2) ∨
      ((∀ q ∈ st.zset,
          ¬(start + (cfg.RETRY_DELAY + cfg.CLOCK_DRIFT) ≤ q.2 ∧
            q.2 ≤ start + cfg.IN_PROCESS - (cfg.TIMEOUT + cfg.CLOCK_DRIFT))) ∧
        ∃ s, (k, s) ∈ st.zset ∧ s ≤ start + cfg.CLOCK_DRIFT ∧
          ∀ q ∈ st.zset, q.2 ≤ start + cfg.CLOCK_DRIFT → s ≤ q.2)) ∧
    (scanCandidate cfg st start = none →
      ∀ q ∈ st.zset,
        ¬(start + (cfg.RETRY_DELAY + cfg.CLOCK_DRIFT) ≤ q.2 ∧
          q.2 ≤ start + cfg.IN_PROCESS - (cfg.TIMEOUT + cfg.CLOCK_DRIFT)) ∧
        ¬(q.2 ≤ start + cfg.CLOCK_DRIFT)) := by
  constructor
  · intro k h
    unfold scanCandidate at h
    cases h1 : zrangebyscoreFirst st.zset
        (some (start + (cfg.RETRY_DELAY + cfg.CLOCK_DRIFT)))
        (start + cfg.IN_PROCESS - (cfg.TIMEOUT + cfg.CLOCK_DRIFT)) with
    | some k1 =>
      rw [h1] at h
      injection h with h2
      subst h2
      left
      obtain ⟨s, hmem, hw, hmin⟩ := zrangebyscoreFirst_some h1
      rw [inWindow_some_iff] at hw
      refine ⟨s, hmem, hw, fun q hq hqw => ?_⟩
      exact hmin q hq (inWindow_some_iff.mpr hqw)
    | none =>
      rw [h1] at h
      right
      have habs := zrangebyscoreFirst_none h1
      constructor
      · intro q hq
        exact inWindow_some_false (habs q hq)
      · obtain ⟨s, hmem, hw, hmin⟩ := zrangebyscoreFirst_some h
        rw [inWindow_none_iff] at hw
        refine ⟨s, hmem, hw, fun q hq hqw => ?_⟩
        exact hmin q hq (inWindow_none_iff.mpr hqw)
  · intro h q hq
    unfold scanCandidate at h
    cases h1 : zrangebyscoreFirst st.zset
        (some (start + (cfg.RETRY_DELAY + cfg.CLOCK_DRIFT)))
        (start + cfg.IN_PROCESS - (cfg.TIMEOUT + cfg.CLOCK_DRIFT)) with
    | some k1 =>
      rw [h1] at h
      cases h
    | none =>
      rw [h1] at h
      have habs1 := zrangebyscoreFirst_none h1 q hq
      have habs2 := zrangebyscoreFirst_none h q hq
      exact ⟨inWindow_some_false habs1, inWindow_none_false habs2⟩

/-- Witness for C3: the amended two-tier theorem applied at the concrete
single-entry state with score 3 at snapshot 0, where the ready tier
selects the entry. -/
theorem C3_witness :
    (∃ s, ("b", s) ∈ ({ zset := [("b", 3)] } : RedisState).zset ∧
      (0 + (defaultConfig.RETRY_DELAY + defaultConfig.CLOCK_DRIFT) ≤ s ∧
        s ≤ 0 + defaultConfig.IN_PROCESS -
          (defaultConfig.TIMEOUT + defaultConfig.CLOCK_DRIFT)) ∧
      ∀ q ∈ ({ zset := [("b", 3)] } : RedisState).zset,
        0 + (defaultConfig.RETRY_DELAY + defaultConfig.CLOCK_DRIFT) ≤ q.2 ∧
          q.2 ≤ 0 + defaultConfig.IN_PROCESS -
            (defaultConfig.TIMEOUT + defaultConfig.CLOCK_DRIFT) →
        s ≤ q.2) ∨
    ((∀ q ∈ ({ zset := [("b", 3)] } : RedisState).zset,
        ¬(0 + (defaultConfig.RETRY_DELAY + defaultConfig.CLOCK_DRIFT) ≤ q.2 ∧
          q.2 ≤ 0 + defaultConfig.IN_PROCESS -
            (defaultConfig.TIMEOUT + defaultConfig.CLOCK_DRIFT))) ∧
      ∃ s, ("b", s) ∈ ({ zset := [("b", 3)] } : RedisState).zset ∧
        s ≤ 0 + defaultConfig.CLOCK_DRIFT ∧
        ∀ q ∈ ({ zset := [("b", 3)] } : RedisState).zset,
          q.2 ≤ 0 + defaultConfig.CLOCK_DRIFT → s ≤ q.2) :=
  (C3_two_tier_selection defaultConfig { zset := [("b", 3)] } 0).1 "b"
    (by decide)

/-- Claim C4 (confirmed): with `RETRY_DELAY = 900`, `add_retry_list` at
`t = 0` registers the key with score exactly `0 + 900`; a
`select_for_processing` call at `t = 0` returns `none` (the score falls
in neither the ready window, which ends at `0 + 15`, nor the abandoned
window, which starts at `0 + 915`), and a call at `t = 900` returns the
key. -/
theorem C4_add_retry_scenario :
    (add_retry_list { RETRY_DELAY := 900 } {} 0 "K2").zset =
      [("K2", 0 + 900)] ∧
    (select_for_processing { RETRY_DELAY := 900 }
        (add_retry_list { RETRY_DELAY := 900 } {} 0 "K2") 0).1 = none ∧
    (select_for_processing { RETRY_DELAY := 900 }
        (add_retry_list { RETRY_DELAY := 900 } {} 0 "K2") 900).1 =
      some "K2" := by
  refine ⟨?_, ?_, ?_⟩ <;> decide

/-- Claim C6 (confirmed): `remove_processed_list` is idempotent.
Calling it a second time on the same key changes nothing at all; calling
it when the key is absent from the Ready-Time Index leaves the index and
its WATCH version untouched (only the backing-storage delete runs); and
after one call the key is gone from both the index and the backing
storage.  No branch of the operation signals an error. -/
theorem remove_processed_list_eq (st : RedisState) (k : String) :
    remove_processed_list st k =
      { st with
        zset := st.zset.filter (fun p => p.1 != k),
        storage := st.storage.filter (fun x => x != k),
        version := if st.zset.filter (fun p => p.1 != k) == st.zset
          then st.version else st.version + 1 } := by
  unfold remove_processed_list zrem touchSet
  by_cases h : (st.zset.filter (fun p => p.1 != k) == st.zset) = true
  · simp [h]
  · have hb : (st.zset.filter (fun p => p.1 != k) == st.zset) = false := by
      simpa using h
    simp [hb]

/-- Claim C6 (confirmed): `remove_processed_list` is idempotent.
Calling it a second time on the same key changes nothing at all; calling
it when the key is absent from the Ready-Time Index leaves the index and
its WATCH version untouched (only the backing-storage delete runs); and
after one call the key is gone from both the index and the backing
storage.  No branch of the operation signals an error. -/
theorem C6_remove_completed_idempotent (st : RedisState) (k : String) :
    remove_processed_list (remove_processed_list st k) k =
      remove_processed_list st k ∧
    (zscore st.zset k = none →
      (remove_processed_list st k).zset = st.zset ∧
      (remove_processed_list st k).version = st.version) ∧
    zscore (remove_processed_list st k).zset k = none ∧
    ¬ k ∈ (remove_processed_list st k).storage := by
  refine ⟨?_, ?_, ?_, ?_⟩
  · rw [remove_processed_list_eq st k, remove_processed_list_eq]
    simp [filter_self_idem]
  · intro h
    have he : st.zset.filter (fun p => p.1 != k) = st.zset :=
      filter_ne_of_zscore_none h
    rw [remove_processed_list_eq st k]
    simp [he]
  · rw [remove_processed_list_eq st k]
    exact zscore_filter_ne _ _
  · rw [remove_processed_list_eq st k]
    intro hmem
    have := (List.mem_filter.mp hmem).2
    simp at this

/-- Witness for C6: removing a key that is absent from the Ready-Time
Index leaves the index and the WATCH version untouched. -/
theorem C6_witness :
    (remove_processed_list { zset := [("L", 5)], storage := ["K"] }
        "K").zset = ({ zset := [("L", 5)], storage := ["K"] } :
          RedisState).zset ∧
    (remove_processed_list { zset := [("L", 5)], storage := ["K"] }
        "K").version = ({ zset := [("L", 5)], storage := ["K"] } :
          RedisState).version :=
  (C6_remove_completed_idempotent
    { zset := [("L", 5)], storage := ["K"] } "K").2.1 (by decide)

/-- Claim C10 (confirmed): the Deferred Ring admits duplicates while the
Ready-Time Index does not.  Pushing the same key twice with
`add_deferred_list` creates two separate ring entries (both counted by
`get_deferred_count`), a single `remove_deferred_list` removes exactly
one of the two occurrences, and by contrast registering the same key
twice with `add_new_list` leaves the index with a single entry (the
second registration only rewrites the score). -/
theorem C10_deferred_ring_duplicates (st : RedisState) (k : String)
    (nowT1 nowT2 : Int) :
    (add_deferred_list (add_deferred_list st k) k).ring.count k =
      st.ring.count k + 2 ∧
    get_deferred_count (add_deferred_list (add_deferred_list st k) k) =
      get_deferred_count st + 2 ∧
    (remove_deferred_list
        (add_deferred_list (add_deferred_list st k) k) k).ring.count k =
      st.ring.count k + 1 ∧
    (add_new_list (add_new_list st nowT1 k) nowT2 k).zset.length =
      (add_new_list st nowT1 k).zset.length := by
  refine ⟨?_, ?_, ?_, ?_⟩
  · simp [add_deferred_list]
  · simp [add_deferred_list, get_deferred_count]
  · simp [add_deferred_list, remove_deferred_list, lremFirst]
  · unfold add_new_list
    have h1 : zscore (zadd st.zset k nowT1).2 k = some nowT1 :=
      zscore_zadd_self _ _ _
    simp only [touchSet_zset]
    exact zadd_length_of_present nowT2 h1

/-- Claim C7 (confirmed): on an empty Deferred Ring
`select_for_undeferral` returns `none` (and only then); on a non-empty
ring it returns the oldest deferred key (the tail of the ring, since
`add_deferred_list` pushes on the left) without removing it — the ring
keeps its length, the key is still present, and the Ready-Time Index is
untouched.  The round trip `select_for_undeferral`, then `add_new_list`
with the returned key (not yet in the index), then
`remove_deferred_list` of that key leaves the ring with exactly one
fewer entry and the index with exactly one more. -/
theorem C7_deferred_round_trip (st : RedisState) (k : String)
    (nowT : Int) :
    ((select_for_undeferral st).1 = none ↔ st.ring = []) ∧
    ((select_for_undeferral st).1 = some k →
      st.ring.getLast? = some k ∧
      (select_for_undeferral st).2.ring.length = st.ring.length ∧
      k ∈ (select_for_undeferral st).2.ring ∧
      (select_for_undeferral st).2.zset = st.zset ∧
      (zscore st.zset k = none →
        (remove_deferred_list
            (add_new_list (select_for_undeferral st).2 nowT k)
            k).ring.length + 1 = st.ring.length ∧
        (remove_deferred_list
            (add_new_list (select_for_undeferral st).2 nowT k)
            k).zset.length = st.zset.length + 1)) := by
  cases hg : st.ring.getLast? with
  | none =>
    have hnil : st.ring = [] := by
      cases hr : st.ring with
      | nil => rfl
      | cons hd tl =>
        rw [hr] at hg
        simp [List.getLast?_concat] at hg
    constructor
    · simp [select_for_undeferral, hg, hnil]
    · intro h
      simp [select_for_undeferral, hg] at h
  | some a =>
    have hne : st.ring ≠ [] := by
      intro hr
      rw [hr] at hg
      cases hg
    have hlen : 1 ≤ st.ring.length := List.length_pos.mpr hne
    constructor
    · simp [select_for_undeferral, hg, hne]
    · intro h
      simp only [select_for_undeferral, hg] at h
      injection h with h2
      subst h2
      refine ⟨rfl, ?_, ?_, by simp [select_for_undeferral, hg], ?_⟩
      · simp only [select_for_undeferral, hg]
        simp [List.length_dropLast]
        omega
      · simp [select_for_undeferral, hg]
      · intro hidx
        simp only [select_for_undeferral, hg]
        constructor
        · simp only [remove_deferred_list, lremFirst, add_new_list,
            touchSet_ring]
          simp only [List.erase_cons_head]
          simp [List.length_dropLast]
          omega
        · simp only [remove_deferred_list, add_new_list, touchSet_zset]
          exact zadd_length_of_absent nowT hidx

/-- Witness for C7: the round trip on the concrete ring
`["c","b","a"]` (oldest entry `"a"` at the tail) with an index not
containing `"a"`. -/
theorem C7_witness :
    (remove_deferred_list
        (add_new_list (select_for_undeferral { ring := ["c","b","a"] }).2
          100 "a") "a").ring.length + 1 =
      ({ ring := ["c","b","a"] } : RedisState).ring.length ∧
    (remove_deferred_list
        (add_new_list (select_for_undeferral { ring := ["c","b","a"] }).2
          100 "a") "a").zset.length =
      ({ ring := ["c","b","a"] } : RedisState).zset.length + 1 :=
  ((C7_deferred_round_trip { ring := ["c","b","a"] } "a" 100).2
    (by decide)).2.2.2.2 (by decide)

/-- Claim C2 (confirmed): two `select_for_processing` callers racing on
the same candidate are serialized by the `WATCH`/`MULTI`/`EXEC` fence.
Both callers scan the same state `st` and pick the same candidate `k`;
whichever transaction commits first wins the claim (outcome
`claimed k`), and the second transaction — whose watched version no
longer matches — aborts without returning the key: its attempt outcome
is `retry`, which sends that caller back to restart the whole claim
sequence after a randomized delay.  The hypothesis `hne` states that the
claim rewrite actually changes the stored score, which holds for every
real candidate (a scanned score lies at or below
`start + IN_PROCESS − TIMEOUT − CLOCK_DRIFT`, strictly below the new
marker `n1 + IN_PROCESS`). -/
theorem C2_at_most_one_winner (cfg : StoreConfig) (st : RedisState)
    (start n1 n2 : Int) (k : String)
    (hk : scanCandidate cfg st start = some k)
    (hne : zscore st.zset k ≠ some (n1 + cfg.IN_PROCESS)) :
    (selectAttempt cfg st st start n1).1 = AttemptOutcome.claimed k ∧
    (selectAttempt cfg st (selectAttempt cfg st st start n1).2 start
        n2).1 = AttemptOutcome.retry := by
  have hs := scanCandidate_isSome_zscore hk
  have h0 : (zadd st.zset k (n1 + cfg.IN_PROCESS)).1 = 0 :=
    (zadd_fst_eq_zero _ _ _).mpr hs
  have hzne : (zadd st.zset k (n1 + cfg.IN_PROCESS)).2 ≠ st.zset := by
    intro he
    apply hne
    rw [← zscore_zadd_self st.zset k (n1 + cfg.IN_PROCESS), he]
  have hA : selectAttempt cfg st st start n1 =
      (AttemptOutcome.claimed k,
        touchSet st (zadd st.zset k (n1 + cfg.IN_PROCESS)).2) := by
    unfold selectAttempt
    rw [hk]
    unfold mark_for_processing
    simp [h0]
  refine ⟨by rw [hA], ?_⟩
  rw [hA]
  unfold selectAttempt
  rw [hk]
  unfold mark_for_processing
  have hv : (touchSet st
      (zadd st.zset k (n1 + cfg.IN_PROCESS)).2).version =
      st.version + 1 := touchSet_version_of_ne hzne
  rw [hv]
  simp

/-- Witness for C2: the race on the concrete ready key `"K"` with score
50, both callers snapshotting at time 100. -/
theorem C2_witness :
    (selectAttempt defaultConfig { zset := [("K", 50)] }
        { zset := [("K", 50)] } 100 100).1 =
      AttemptOutcome.claimed "K" ∧
    (selectAttempt defaultConfig { zset := [("K", 50)] }
        (selectAttempt defaultConfig { zset := [("K", 50)] }
          { zset := [("K", 50)] } 100 100).2 100 101).1 =
      AttemptOutcome.retry :=
  C2_at_most_one_winner defaultConfig { zset := [("K", 50)] } 100 100 101
    "K" (by decide) (by decide)

theorem processStep_deferred (cfg : StoreConfig) (st : RedisState)
    (nowT : Int) {k nk : WKey} {bad : Nat}
    (h : routeAfterDrain k bad = Disposition.deferred nk) :
    processStep cfg st k bad nowT =
      remove_processed_list (add_deferred_list st (WKey.render nk))
        (WKey.render k) := by
  unfold processStep
  rw [h]

/-- Claim C5 (confirmed): the retry-generation counter embedded in a
webhook key strictly increases by one with each retry generation
(`rc < 5` yields a retry key with counter `rc + 1`); a failing unit
whose counter exceeds the ceiling of 5 is routed to the Deferred Ring
via `add_deferred_list` instead of being re-registered via
`add_retry_list`, and the worker iteration then leaves the Ready-Time
Index without any new entry (the drained key is only removed), so the
deferred unit cannot reappear in the index without operator action. -/
theorem C5_retry_generation (k : WKey) (bad : Nat) (cfg : StoreConfig)
    (st : RedisState) (nowT : Int) :
    (bad > 0 → k.rc < 5 →
      routeAfterDrain k bad =
        Disposition.retried { k with rc := k.rc + 1 }) ∧
    (bad > 0 → k.rc > 5 →
      routeAfterDrain k bad = Disposition.deferred { k with rc := 0 }) ∧
    (∀ nk, routeAfterDrain k bad = Disposition.deferred nk →
      (processStep cfg st k bad nowT).zset =
        st.zset.filter (fun p => p.1 != WKey.render k) ∧
      WKey.render nk ∈ (processStep cfg st k bad nowT).ring) := by
  refine ⟨?_, ?_, ?_⟩
  · intro hb h5
    simp [routeAfterDrain, retryKeyOf, h5, hb]
  · intro hb h6
    have h5 : ¬ k.rc < 5 := by omega
    simp [routeAfterDrain, retryKeyOf, h5, hb]
  · intro nk hroute
    by_cases hb : bad > 0
    · by_cases h5 : k.rc < 5
      · rw [routeAfterDrain] at hroute
        simp [retryKeyOf, h5, hb] at hroute
      · have hd : routeAfterDrain k bad =
            Disposition.deferred { k with rc := 0 } := by
          simp [routeAfterDrain, retryKeyOf, h5, hb]
        rw [hd] at hroute
        injection hroute with h2
        subst h2
        rw [processStep_deferred cfg st nowT hd]
        constructor
        · rw [remove_processed_list_eq]
          simp [add_deferred_list]
        · rw [remove_processed_list_eq]
          simp [add_deferred_list]
    · rw [routeAfterDrain] at hroute
      simp [retryKeyOf, hb] at hroute

/-- Witness for C5: generation 2 retries as generation 3; generation 6
(already past the ceiling) is deferred with its counter reset, the index
is left with the drained key removed and nothing added, and the deferred
key sits on the ring. -/
theorem C5_witness :
    routeAfterDrain ⟨"prod", "x", 2⟩ 1 =
      Disposition.retried ⟨"prod", "x", 3⟩ ∧
    routeAfterDrain ⟨"prod", "x", 6⟩ 1 =
      Disposition.deferred ⟨"prod", "x", 0⟩ ∧
    (processStep defaultConfig { zset := [("prod:x:6", 50)] }
        ⟨"prod", "x", 6⟩ 1 0).zset =
      ([("prod:x:6", 50)] : List (String × Int)).filter
        (fun p => p.1 != WKey.render ⟨"prod", "x", 6⟩) ∧
    WKey.render ⟨"prod", "x", 0⟩ ∈
      (processStep defaultConfig { zset := [("prod:x:6", 50)] }
        ⟨"prod", "x", 6⟩ 1 0).ring :=
  ⟨(C5_retry_generation ⟨"prod", "x", 2⟩ 1 defaultConfig {} 0).1
      (by decide) (by decide),
   (C5_retry_generation ⟨"prod", "x", 6⟩ 1 defaultConfig {} 0).2.1
      (by decide) (by decide),
   ((C5_retry_generation ⟨"prod", "x", 6⟩ 1 defaultConfig
      { zset := [("prod:x:6", 50)] } 0).2.2 ⟨"prod", "x", 0⟩
      (by decide)).1,
   ((C5_retry_generation ⟨"prod", "x", 6⟩ 1 defaultConfig
      { zset := [("prod:x:6", 50)] } 0).2.2 ⟨"prod", "x", 0⟩
      (by decide)).2⟩

/-- Claim C8 (confirmed): `select_from_channel` returns the published
key exactly when all three backend calls (subscribe, blocking get,
unsubscribe) succeed, and whenever the subscription is torn down — any
of the calls raising a `RedisError`, typically because the process is
shutting down and closing connections — it returns `none` instead of
propagating the exception (the function is total with result type
`Option String`, so no error ever escapes to the caller). -/
theorem C8_channel_shutdown (s u : Except RedisError Unit)
    (g : Except RedisError String) (k : String) :
    (select_from_channel s g u = some k ↔
      s = Except.ok () ∧ g = Except.ok k ∧ u = Except.ok ()) ∧
    (∀ e, s = Except.error e ∨ g = Except.error e ∨ u = Except.error e →
      select_from_channel s g u = none) := by
  rcases s with es | vs
  · constructor
    · constructor
      · intro h
        cases h
      · rintro ⟨hs, -, -⟩
        cases hs
    · intro e _
      rfl
  · cases vs
    rcases g with eg | vg
    · constructor
      · constructor
        · intro h
          cases h
        · rintro ⟨-, hg, -⟩
          cases hg
      · intro e _
        rfl
    · rcases u with eu | vu
      · constructor
        · constructor
          · intro h
            cases h
          · rintro ⟨-, -, hu⟩
            cases hu
        · intro e _
          rfl
      · cases vu
        constructor
        · constructor
          · intro h
            have h2 : vg = k := by
              cases h
              rfl
            exact ⟨rfl, by rw [h2], rfl⟩
          · rintro ⟨-, hg, -⟩
            injection hg with h2
            rw [← h2]
            rfl
        · intro e he
          rcases he with he | he | he <;> cases he

/-- Witness for C8: a torn-down subscription (connection closed) makes
`select_from_channel` return `none` rather than raise. -/
theorem C8_witness :
    select_from_channel (Except.error RedisError.connectionClosed)
      (Except.ok "x") (Except.ok ()) = none :=
  (C8_channel_shutdown (Except.error RedisError.connectionClosed)
    (Except.ok ()) (Except.ok "x") "x").2 RedisError.connectionClosed
    (Or.inl rfl)

theorem selectAttempt_of_scan_none {cfg : StoreConfig}
    {scanSt : RedisState} {start : Int} (execSt : RedisState) (nowT : Int)
    (h : scanCandidate cfg scanSt start = none) :
    selectAttempt cfg scanSt execSt start nowT =
      (AttemptOutcome.noneReady, execSt) := by
  unfold selectAttempt
  rw [h]

theorem selectAttempt_of_scan_some {cfg : StoreConfig}
    {scanSt : RedisState} {start : Int} {k : String}
    (execSt : RedisState) (nowT : Int)
    (h : scanCandidate cfg scanSt start = some k) :
    selectAttempt cfg scanSt execSt start nowT =
      (if (mark_for_processing cfg execSt scanSt.version nowT k).1
        then AttemptOutcome.claimed k else AttemptOutcome.retry,
       (mark_for_processing cfg execSt scanSt.version nowT k).2) := by
  unfold selectAttempt
  rw [h]

theorem mark_true_iff (cfg : StoreConfig) (st : RedisState)
    (watched : Nat) (nowT : Int) (key : String) :
    (mark_for_processing cfg st watched nowT key).1 = true ↔
      (st.version == watched) = true ∧
        (zscore st.zset key).isSome = true := by
  unfold mark_for_processing
  by_cases hv : (st.version == watched) = true
  · rw [if_pos hv]
    simp only [hv, true_and]
    constructor
    · intro h
      exact (zadd_fst_eq_zero _ _ _).mp (by simpa using h)
    · intro h
      simpa using (zadd_fst_eq_zero st.zset key
        (nowT + cfg.IN_PROCESS)).mpr h
  · rw [if_neg hv]
    simp [hv]

/-- Claim C9 (confirmed): `select_for_processing` never returns a key
that is absent from the Ready-Time Index at the moment of the claim
write.  A claim-loop iteration reports `claimed k` only when the
conditional score rewrite found the member already present (`zadd`
added 0 new members under a matching WATCH version); if the candidate
was removed by another worker between the scan and the write, the
attempt outcome is `retry` — the loop starts over instead of returning
the key. -/
theorem C9_no_phantom_claims (cfg : StoreConfig)
    (scanSt execSt : RedisState) (start nowT : Int) (k : String) :
    ((selectAttempt cfg scanSt execSt start nowT).1 =
        AttemptOutcome.claimed k →
      (zscore execSt.zset k).isSome = true) ∧
    (scanCandidate cfg scanSt start = some k →
      zscore execSt.zset k = none →
      (selectAttempt cfg scanSt execSt start nowT).1 =
        AttemptOutcome.retry) := by
  constructor
  · intro h
    cases hc : scanCandidate cfg scanSt start with
    | none =>
      rw [selectAttempt_of_scan_none execSt nowT hc] at h
      cases h
    | some k1 =>
      rw [selectAttempt_of_scan_some execSt nowT hc] at h
      by_cases hm :
          (mark_for_processing cfg execSt scanSt.version nowT k1).1 = true
      · rw [if_pos hm] at h
        injection h with h2
        subst h2
        exact ((mark_true_iff cfg execSt scanSt.version nowT k1).mp hm).2
      · rw [if_neg hm] at h
        cases h
  · intro hk habs
    rw [selectAttempt_of_scan_some execSt nowT hk]
    have hm : ¬ (mark_for_processing cfg execSt scanSt.version
        nowT k).1 = true := by
      intro hb
      have := ((mark_true_iff cfg execSt scanSt.version nowT k).mp hb).2
      rw [habs] at this
      cases this
    rw [if_neg hm]

/-- Witness for C9: the scan of an older snapshot still sees key `"K"`,
but the key is gone from the index when the transaction runs, so the
attempt outcome is a conflict retry, not a claim. -/
theorem C9_witness :
    (selectAttempt defaultConfig { zset := [("K", 50)] } {} 100 100).1 =
      AttemptOutcome.retry :=
  (C9_no_phantom_claims defaultConfig { zset := [("K", 50)] } {} 100 100
    "K").2 (by decide) (by decide)
